import Mathlib

/-!
# Meeting-Rooms availability engine: a shallow embedding

This file embeds the availability computation and caching engine of the
Meeting-Rooms repository in Lean 4, and proves the specification's claims
about it.

Conventions of the embedding:

* A JavaScript `Date` (an instant) is modelled as an `Int`, its value in
  milliseconds (the value of `getTime()`).  Comparisons between `Date`
  objects in the source compare these values.
* Timezone conversions (`toZonedTime` / `fromZonedTime`) are abstracted to
  the instants they denote: a function that in the source receives a date
  string and converts "09:00 on that date" to an instant here receives
  that instant directly as a parameter.
* The `Map` objects used as caches are modelled as association lists with
  first-match lookup semantics.
* ISO-string serialisation of instants in responses is dropped: response
  fields hold the instants themselves.
-/

/-- A busy interval, from the availability route.  The source field `end`
is a Lean keyword so it is written `«end»`.  Instants are in milliseconds. -/
structure BusyBlock where
  start : Int
  «end» : Int
  title : String
deriving DecidableEq, Repr

/-- A calendar event as returned by the remote source, after the
`e.start?.dateTime && e.end?.dateTime` filter: both instants present,
summary optional (the source's `e.summary || 'Booked'` default applies). -/
structure CalEvent where
  start : Int
  «end» : Int
  summary : Option String
deriving DecidableEq, Repr

/-- Per-room availability snapshot (`RoomAvailability` in the source). -/
structure RoomAvailability where
  busyBlocks : List BusyBlock
  freeNow : Bool
  nextAvailable : Option Int
  error : Option String
deriving DecidableEq, Repr

/-- Whole response of the availability route (`AvailabilityResponse`). -/
structure AvailabilityResponse where
  talkingRoom : RoomAvailability
  boardRoom : RoomAvailability
  date : String
deriving DecidableEq, Repr

/-- Comparator used by `mergeBlocks`'s sort:
`(a, b) => a.start.getTime() - b.start.getTime()`. -/
def startLE (a b : BusyBlock) : Prop := a.start ≤ b.start

instance : DecidableRel startLE := fun a b => Int.decLe a.start b.start

instance : IsTotal BusyBlock startLE := ⟨fun a b => Int.le_total a.start b.start⟩

instance : IsTrans BusyBlock startLE := ⟨fun _ _ _ h h' => le_trans h h'⟩

/-- `[...blocks].sort((a, b) => a.start.getTime() - b.start.getTime())`:
JavaScript's `sort` is stable, modelled by stable insertion sort on the
same comparator. -/
def sortByStart (blocks : List BusyBlock) : List BusyBlock :=
  List.insertionSort startLE blocks

/-- The merging walk of `mergeBlocks`: `merged` holds a current last block;
each next sorted interval either extends it (`sorted[i].start <= last.end`,
`last.end = max(last.end, sorted[i].end)`, title of `last` kept) or is
pushed as the new current block. -/
def mergeLoop (cur : BusyBlock) : List BusyBlock → List BusyBlock
  | [] => [cur]
  | b :: rest =>
    if b.start ≤ cur.«end» then
      mergeLoop { cur with «end» := max cur.«end» b.«end» } rest
    else
      cur :: mergeLoop b rest

/-- `mergeBlocks` from the availability route: sort by start, then merge
overlapping or touching intervals. -/
def mergeBlocks (blocks : List BusyBlock) : List BusyBlock :=
  match sortByStart blocks with
  | [] => []
  | first :: rest => mergeLoop first rest

/-- The clipping step of the availability route's event normalisation:
`start = max(eventStart, windowStart)`, `end = min(eventEnd, windowEnd)`,
`title = e.summary || 'Booked'`. -/
def clipRecord (e : CalEvent) (windowStart windowEnd : Int) : BusyBlock :=
  { start := max e.start windowStart
    «end» := min e.«end» windowEnd
    title := e.summary.getD "Booked" }

/-- `rawBlocks` of the availability route: map each event to its clipped
block, then keep only blocks with `b.start < b.end`. -/
def rawBlocksOf (events : List CalEvent) (windowStart windowEnd : Int) : List BusyBlock :=
  (events.map (fun e => clipRecord e windowStart windowEnd)).filter
    (fun b => decide (b.start < b.«end»))

/-- The `freeNow` / `nextAvailable` computation of `getRoomAvailability`
(availability route, lines 100–112): status is only computed when the
requested date is today and `now` lies in `[windowStart, windowEnd)`;
`freeNow = !merged.some(b => b.start <= now && b.end > now)`, and when not
free, `nextAvailable` is the end of the first block containing `now`. -/
def availabilityStatus (merged : List BusyBlock) (dateStr todayStr : String)
    (windowStart windowEnd now : Int) : Bool × Option Int :=
  let isToday := dateStr == todayStr
  if isToday ∧ windowStart ≤ now ∧ now < windowEnd then
    if merged.any (fun b => decide (b.start ≤ now ∧ now < b.«end»)) then
      match merged.find? (fun b => decide (b.start ≤ now ∧ now < b.«end»)) with
      | some b => (false, some b.«end»)
      | none => (false, none)
    else (true, none)
  else (false, none)

/-- The degraded snapshot returned by `getRoomAvailability`'s catch branch. -/
def degradedRoom : RoomAvailability :=
  { busyBlocks := []
    freeNow := false
    nextAvailable := none
    error := some "Could not load calendar data" }

/-- `getRoomAvailability` from the availability route.  The remote
`calendar.events.list` call is abstracted as its outcome `fetched`: an
error (any throw inside the `try`) or the fetched event list.  On success
the pipeline is clip → filter → merge → status; `error` stays absent. -/
def getRoomAvailability (fetched : Except String (List CalEvent))
    (dateStr todayStr : String) (windowStart windowEnd now : Int) : RoomAvailability :=
  match fetched with
  | .error _ => degradedRoom
  | .ok events =>
    let merged := mergeBlocks (rawBlocksOf events windowStart windowEnd)
    let status := availabilityStatus merged dateStr todayStr windowStart windowEnd now
    { busyBlocks := merged
      freeNow := status.1
      nextAvailable := status.2
      error := none }

/-- Assembly of the availability route's response: both rooms computed
independently (`Promise.all`), aggregated with the echoed date. -/
def buildAvailabilityResponse (fetchTalking fetchBoard : Except String (List CalEvent))
    (dateStr todayStr : String) (windowStart windowEnd now : Int) : AvailabilityResponse :=
  { talkingRoom := getRoomAvailability fetchTalking dateStr todayStr windowStart windowEnd now
    boardRoom := getRoomAvailability fetchBoard dateStr todayStr windowStart windowEnd now
    date := dateStr }

/-- `durationConflicts` from the client page: the effective start is the
window's 09:00 instant (`fromZonedTime(dateStr + 'T09:00:00')`, passed here
as `window9`) when `durationMins === 480`, otherwise the clicked slot
start; the scan returns the first block with
`b.start < end && b.end > start`. -/
def durationConflicts (window9 slotStart durationMins : Int)
    (blocks : List BusyBlock) : Option BusyBlock :=
  let start := if durationMins = 480 then window9 else slotStart
  let endT := start + durationMins * 60000
  blocks.find? (fun b => decide (b.start < endT ∧ start < b.«end»))

/-- The conflict scan from a given effective start, used to characterise
which start `durationConflicts` actually scans from. -/
def conflictFrom (start durationMins : Int) (blocks : List BusyBlock) : Option BusyBlock :=
  blocks.find? (fun b => decide (b.start < start + durationMins * 60000 ∧ start < b.«end»))

/-- The start instant `handleBookNow` sends to the book route and uses for
its optimistic block: 09:00 of the current date (`window9`) when the
selected duration is 480, otherwise the clicked slot start. -/
def bookNowStart (window9 slotStart durationMins : Int) : Int :=
  if durationMins = 480 then window9 else slotStart

/-- `BOOKING_WINDOW_START` default `'09:00'`, in minutes from midnight. -/
def WINDOW_START_MINS : Int := 540

/-- `BOOKING_WINDOW_END` default `'18:00'`, in minutes from midnight. -/
def WINDOW_END_MINS : Int := 1080

/-- Length of the booking window in minutes (09:00–18:00). -/
def windowLengthMins : Int := WINDOW_END_MINS - WINDOW_START_MINS

/-- `TOTAL_SLOTS = (SLOT_END_HOUR - SLOT_START_HOUR) * 2` with hours 9 and
18: the 18 half-hour slots of the grid. -/
def TOTAL_SLOTS : Nat := (18 - 9) * 2

/-- `slotIndexToDate`: the instant where slot `i` starts.  `window9` is
the 09:00 instant of the current date; each slot is 30 minutes
(1 800 000 ms). -/
def slotIndexToDate (window9 : Int) (i : Nat) : Int :=
  window9 + (i : Int) * 1800000

/-- `isSlotBusy`: the first block overlapping slot `i`
(`b.start < slotEnd && b.end > slotStart`), if any. -/
def isSlotBusy (window9 : Int) (i : Nat) (blocks : List BusyBlock) : Option BusyBlock :=
  blocks.find? (fun b =>
    decide (b.start < slotIndexToDate window9 (i + 1) ∧ slotIndexToDate window9 i < b.«end»))

/-- One step of `renderSlots`' labelling state: `acc.1` is the `seen` set
of start values already labelled, `acc.2` the blocks labelled so far.  A
slot's busy block is labelled iff its `start` value is not in `seen`
(`!seen.has(busyBlock.start)`), and its `start` is then added to `seen`. -/
def labelStep (window9 : Int) (blocks : List BusyBlock)
    (acc : List Int × List BusyBlock) (i : Nat) : List Int × List BusyBlock :=
  match isSlotBusy window9 i blocks with
  | some b => if acc.1.contains b.start then acc else (b.start :: acc.1, acc.2 ++ [b])
  | none => acc

/-- The blocks that receive a label across the slot grid of `renderSlots`,
in slot order. -/
def renderSlotsLabels (window9 : Int) (blocks : List BusyBlock) : List BusyBlock :=
  ((List.range TOTAL_SLOTS).foldl (labelStep window9 blocks) ([], [])).2

/-- A cache entry of the availability route's module cache and of the
shared `availabilityCache`: the cached value and its write instant
(`{ data, ts }`). -/
structure CacheEntry where
  data : AvailabilityResponse
  ts : Int
deriving DecidableEq, Repr

/-- A `Map<string, CacheEntry>`, as an association list with first-match
lookup. -/
def Cache : Type := List (String × CacheEntry)

/-- `cache.get(key)`. -/
def cacheFind (c : Cache) (k : String) : Option CacheEntry :=
  (List.find? (fun p => p.1 == k) c).map (fun p => p.2)

/-- `cache.set(key, entry)`: overwrites any previous binding of `key`. -/
def cacheSet (c : Cache) (k : String) (e : CacheEntry) : Cache :=
  (k, e) :: List.filter (fun p => !(p.1 == k)) c

/-- `cache.delete(key)`. -/
def cacheDelete (c : Cache) (k : String) : Cache :=
  List.filter (fun p => !(p.1 == k)) c

/-- `CACHE_TTL = 60_000` (both in the availability route and `cache.ts`). -/
def CACHE_TTL : Int := 60000

/-- The fresh-hit read of the availability route (lines 139–141):
`cached && Date.now() - cached.ts < CACHE_TTL` yields the cached data,
anything else is a miss. -/
def cacheFresh (c : Cache) (k : String) (now : Int) : Option AvailabilityResponse :=
  match cacheFind c k with
  | some e => if now - e.ts < CACHE_TTL then some e.data else none
  | none => none

/-- The `GET` handler of the availability route: on a fresh cache hit it
returns the cached response without touching the remote source; otherwise
it recomputes from the two rooms' fetch outcomes and stores the result
with `ts = now`.  The returned `Bool` records whether the remote fetch ran. -/
def GETavailability (c : Cache) (dateStr todayStr : String)
    (windowStart windowEnd now : Int)
    (fetchTalking fetchBoard : Except String (List CalEvent)) :
    AvailabilityResponse × Cache × Bool :=
  match cacheFresh c dateStr now with
  | some data => (data, c, false)
  | none =>
    let data := buildAvailabilityResponse fetchTalking fetchBoard dateStr todayStr windowStart windowEnd now
    (data, cacheSet c dateStr { data := data, ts := now }, true)

/-- The two distinct caches live in the deployed process: `routeCache` is
the module-level `cache` map declared inside the availability route
(part_000 line 127), `availabilityCache` is the shared map exported by
`cache.ts`.  The availability `GET` reads and writes only `routeCache`;
the book and remove routes delete only from `availabilityCache`. -/
structure SystemCaches where
  routeCache : Cache
  availabilityCache : Cache

/-- The availability `GET` acting on the system state: it consults the
route's own module cache. -/
def GETsys (s : SystemCaches) (dateStr todayStr : String)
    (windowStart windowEnd now : Int)
    (fetchTalking fetchBoard : Except String (List CalEvent)) :
    AvailabilityResponse × SystemCaches × Bool :=
  let r := GETavailability s.routeCache dateStr todayStr windowStart windowEnd now fetchTalking fetchBoard
  (r.1, { s with routeCache := r.2.1 }, r.2.2)

/-- The cache effect of the book route's `POST` after the remote insert
reports success: `availabilityCache.delete(dateStr)` where `dateStr` is
the booking's start date.  The remote write itself is abstracted away. -/
def POSTbook (s : SystemCaches) (dateStr : String) : SystemCaches :=
  { s with availabilityCache := cacheDelete s.availabilityCache dateStr }

/-! ## Helper lemmas -/

/-- The disjointness-from relation between merged blocks: the earlier
block ends strictly before the later one starts. -/
def endLT (a b : BusyBlock) : Prop := a.«end» < b.start

instance : DecidableRel endLT := fun a b => Int.decLt a.«end» b.start

lemma mergeLoop_invariant : ∀ (l : List BusyBlock) (cur : BusyBlock),
    l.Pairwise startLE → (∀ b ∈ l, cur.start ≤ b.start) →
    (mergeLoop cur l).Pairwise startLE ∧ (mergeLoop cur l).Pairwise endLT ∧
      ∀ x ∈ mergeLoop cur l, cur.start ≤ x.start := by
  intro l
  induction l with
  | nil =>
    intro cur _ _
    refine ⟨List.pairwise_singleton _ _, List.pairwise_singleton _ _, ?_⟩
    intro x hx
    simp only [mergeLoop, List.mem_singleton] at hx
    exact hx ▸ le_refl _
  | cons b rest ih =>
    intro cur hs hcur
    rw [List.pairwise_cons] at hs
    have hcurb : cur.start ≤ b.start := hcur b (List.mem_cons_self _ _)
    by_cases hle : b.start ≤ cur.«end»
    · have hrec := ih { cur with «end» := max cur.«end» b.«end» } hs.2
        (fun c hc => hcur c (List.mem_cons_of_mem _ hc))
      show (mergeLoop cur (b :: rest)).Pairwise startLE ∧ _
      rw [mergeLoop, if_pos hle]
      exact hrec
    · have hlt : cur.«end» < b.start := not_le.mp hle
      have hrec := ih b hs.2 hs.1
      show (mergeLoop cur (b :: rest)).Pairwise startLE ∧ _
      rw [mergeLoop, if_neg hle]
      refine ⟨?_, ?_, ?_⟩
      · rw [List.pairwise_cons]
        exact ⟨fun x hx => le_trans hcurb (hrec.2.2 x hx), hrec.1⟩
      · rw [List.pairwise_cons]
        exact ⟨fun x hx => lt_of_lt_of_le hlt (hrec.2.2 x hx), hrec.2.1⟩
      · intro x hx
        rcases List.mem_cons.mp hx with h | h
        · exact h ▸ le_refl _
        · exact le_trans hcurb (hrec.2.2 x h)

lemma mergeLoop_eq_of_pairwise : ∀ (l : List BusyBlock) (cur : BusyBlock),
    (cur :: l).Pairwise endLT → mergeLoop cur l = cur :: l := by
  intro l
  induction l with
  | nil => intro cur _; rfl
  | cons b rest ih =>
    intro cur h
    rw [List.pairwise_cons] at h
    have hcb : cur.«end» < b.start := h.1 b (List.mem_cons_self _ _)
    rw [mergeLoop, if_neg (not_le.mpr hcb), ih b h.2]

lemma find?_min_start : ∀ (blocks : List BusyBlock) (p : BusyBlock → Bool) (b : BusyBlock),
    blocks.Pairwise startLE → blocks.find? p = some b →
    ∀ b' ∈ blocks, p b' = true → b.start ≤ b'.start := by
  intro blocks p
  induction blocks with
  | nil => intro b _ hf; simp at hf
  | cons c rest ih =>
    intro b hs hf b' hb' hp'
    rw [List.pairwise_cons] at hs
    by_cases hc : p c = true
    · rw [List.find?_cons_of_pos _ hc] at hf
      injection hf with hf
      subst hf
      rcases List.mem_cons.mp hb' with h | h
      · exact h ▸ le_refl _
      · exact hs.1 b' h
    · rw [List.find?_cons_of_neg _ (by simpa using hc)] at hf
      rcases List.mem_cons.mp hb' with h | h
      · exact absurd (h ▸ hp') hc
      · exact ih b hs.2 hf b' h hp'

lemma find?_contains_unique (now : Int) : ∀ (merged : List BusyBlock),
    merged.Pairwise endLT →
    ∀ b ∈ merged, b.start ≤ now → now < b.«end» →
    merged.find? (fun x => decide (x.start ≤ now ∧ now < x.«end»)) = some b := by
  intro merged
  induction merged with
  | nil => intro _ b hb; simp at hb
  | cons c rest ih =>
    intro hd b hb h1 h2
    rw [List.pairwise_cons] at hd
    rcases List.mem_cons.mp hb with h | h
    · subst h
      exact List.find?_cons_of_pos _ (by simp [h1, h2])
    · have hcend : c.«end» < b.start := hd.1 b h
      have hnc : ¬ (c.start ≤ now ∧ now < c.«end») := by
        rintro ⟨_, hcn⟩
        exact absurd (lt_of_lt_of_le (lt_trans hcn hcend) h1) (lt_irrefl now)
      rw [List.find?_cons_of_neg _ (by simpa using hnc)]
      exact ih hd.2 b h h1 h2

lemma mergeBlocks_pairwise (l : List BusyBlock) :
    (mergeBlocks l).Pairwise startLE ∧ (mergeBlocks l).Pairwise endLT := by
  have hsorted : (sortByStart l).Pairwise startLE := List.sorted_insertionSort startLE l
  rw [mergeBlocks]
  cases hs : sortByStart l with
  | nil => exact ⟨List.Pairwise.nil, List.Pairwise.nil⟩
  | cons first rest =>
    rw [hs, List.pairwise_cons] at hsorted
    have h := mergeLoop_invariant rest first hsorted.2 hsorted.1
    exact ⟨h.1, h.2.1⟩

/-! ## Claims -/

/-- C2: `mergeBlocks` returns blocks sorted ascending by start and
pairwise disjoint (every earlier block ends strictly before every later
block starts), merging any interval whose start is ≤ the current block's
end; in particular the touching pair 09:00–09:30, 09:30–10:00 merges into
the single block 09:00–10:00 (instants in ms from midnight). -/
theorem mergeBlocks_sorted_disjoint (l : List BusyBlock) :
    (mergeBlocks l).Pairwise startLE ∧ (mergeBlocks l).Pairwise endLT ∧
    mergeBlocks [⟨32400000, 34200000, "A"⟩, ⟨34200000, 36000000, "B"⟩]
      = [⟨32400000, 36000000, "A"⟩] :=
  ⟨(mergeBlocks_pairwise l).1, (mergeBlocks_pairwise l).2, by decide⟩

/-- C9: merging is idempotent — on a list that is already sorted ascending
by start and pairwise disjoint, `mergeBlocks` is the identity. -/
theorem mergeBlocks_idempotent (l : List BusyBlock)
    (hs : l.Pairwise startLE) (hd : l.Pairwise endLT) : mergeBlocks l = l := by
  rw [mergeBlocks, sortByStart, List.Sorted.insertionSort_eq hs]
  cases l with
  | nil => rfl
  | cons a t => exact mergeLoop_eq_of_pairwise t a hd

/-- Witness for C9 at a concrete already-merged list. -/
theorem mergeBlocks_idempotent_witness :
    mergeBlocks [⟨32400000, 36000000, "A"⟩, ⟨39600000, 41400000, "C"⟩]
      = [⟨32400000, 36000000, "A"⟩, ⟨39600000, 41400000, "C"⟩] :=
  mergeBlocks_idempotent _ (by decide) (by decide)

/-- C3: on an ascending-sorted block list, `durationConflicts` reports a
conflict iff some block satisfies `block.start < proposedEnd` and
`block.end > effectiveStart` (`proposedEnd = effectiveStart + duration`),
and a returned block is an earliest-starting conflicting block. -/
theorem durationConflicts_earliest (window9 slotStart durationMins : Int)
    (blocks : List BusyBlock) (hs : blocks.Pairwise startLE) :
    (∀ b, durationConflicts window9 slotStart durationMins blocks = some b →
      (b.start < (if durationMins = 480 then window9 else slotStart) + durationMins * 60000 ∧
        (if durationMins = 480 then window9 else slotStart) < b.«end») ∧
      ∀ b' ∈ blocks,
        b'.start < (if durationMins = 480 then window9 else slotStart) + durationMins * 60000 →
        (if durationMins = 480 then window9 else slotStart) < b'.«end» →
        b.start ≤ b'.start) ∧
    (durationConflicts window9 slotStart durationMins blocks = none ↔
      ∀ b ∈ blocks,
        ¬(b.start < (if durationMins = 480 then window9 else slotStart) + durationMins * 60000 ∧
          (if durationMins = 480 then window9 else slotStart) < b.«end»)) := by
  constructor
  · intro b hb
    constructor
    · have := List.find?_some hb
      simpa using this
    · intro b' hb' h1 h2
      exact find?_min_start blocks _ b hs hb b' hb' (by simpa using And.intro h1 h2)
  · rw [durationConflicts, List.find?_eq_none]
    constructor
    · intro h b hb
      have := h b hb
      simpa using this
    · intro h b hb
      simpa using h b hb

/-- Witness for C3 at the specification's example: start 09:00, duration
60 minutes, blocks `[09:30–10:00]` — the conflict is reported and the
returned block starts at 09:30. -/
theorem durationConflicts_earliest_witness :
    (∀ b, durationConflicts 32400000 32400000 60 [⟨34200000, 36000000, "X"⟩] = some b →
      (b.start < (if (60 : Int) = 480 then 32400000 else 32400000) + 60 * 60000 ∧
        (if (60 : Int) = 480 then 32400000 else 32400000) < b.«end») ∧
      ∀ b' ∈ [(⟨34200000, 36000000, "X"⟩ : BusyBlock)],
        b'.start < (if (60 : Int) = 480 then 32400000 else 32400000) + 60 * 60000 →
        (if (60 : Int) = 480 then 32400000 else 32400000) < b'.«end» →
        b.start ≤ b'.start) ∧
    (durationConflicts 32400000 32400000 60 [⟨34200000, 36000000, "X"⟩] = none ↔
      ∀ b ∈ [(⟨34200000, 36000000, "X"⟩ : BusyBlock)],
        ¬(b.start < (if (60 : Int) = 480 then 32400000 else 32400000) + 60 * 60000 ∧
          (if (60 : Int) = 480 then 32400000 else 32400000) < b.«end»)) :=
  durationConflicts_earliest 32400000 32400000 60 [⟨34200000, 36000000, "X"⟩] (by decide)

/-- C4 counterexample: the claim predicts the all-day forcing exactly when
the duration equals the full window length (540 minutes for the default
09:00–18:00 window).  At duration 480 — not the window length — with slot
10:00 and a busy block 09:00–09:30, the code forces the start to 09:00 and
reports a conflict, while a scan from the clicked slot (what the claim
prescribes for a non-window-length duration) reports none. -/
theorem allDayOverride_counterexample :
    windowLengthMins = 540 ∧ (480 : Int) ≠ windowLengthMins ∧
    durationConflicts 32400000 36000000 480 [⟨32400000, 34200000, "A"⟩]
      = some ⟨32400000, 34200000, "A"⟩ ∧
    conflictFrom 36000000 480 [⟨32400000, 34200000, "A"⟩] = none ∧
    bookNowStart 32400000 36000000 480 = 32400000 := by
  refine ⟨by decide, by decide, by decide, by decide, by decide⟩

/-- C4 (amended): the effective proposed start — both in the client
conflict check and in the start sent for the created reservation — is
forced to the window start exactly when the requested duration is 480
minutes (the UI's "All day" option); for every other duration it is the
clicked slot time.  480 is not the full window length, which is 540
minutes for the default 09:00–18:00 window. -/
theorem allDayOverride_amended (window9 slotStart durationMins : Int)
    (blocks : List BusyBlock) :
    (durationMins = 480 →
      durationConflicts window9 slotStart durationMins blocks
          = conflictFrom window9 durationMins blocks ∧
        bookNowStart window9 slotStart durationMins = window9) ∧
    (durationMins ≠ 480 →
      durationConflicts window9 slotStart durationMins blocks
          = conflictFrom slotStart durationMins blocks ∧
        bookNowStart window9 slotStart durationMins = slotStart) ∧
    windowLengthMins = 540 := by
  refine ⟨?_, ?_, by decide⟩
  · intro h
    subst h
    simp [durationConflicts, conflictFrom, bookNowStart]
  · intro h
    simp [durationConflicts, conflictFrom, bookNowStart, h]

/-- Witness for the amended C4 at duration 480, window start 09:00, slot
10:00. -/
theorem allDayOverride_amended_witness :
    ((480 : Int) = 480 →
      durationConflicts 32400000 36000000 480 [⟨32400000, 34200000, "A"⟩]
          = conflictFrom 32400000 480 [⟨32400000, 34200000, "A"⟩] ∧
        bookNowStart 32400000 36000000 480 = 32400000) ∧
    ((480 : Int) ≠ 480 →
      durationConflicts 32400000 36000000 480 [⟨32400000, 34200000, "A"⟩]
          = conflictFrom 36000000 480 [⟨32400000, 34200000, "A"⟩] ∧
        bookNowStart 32400000 36000000 480 = 36000000) ∧
    windowLengthMins = 540 :=
  allDayOverride_amended 32400000 36000000 480 [⟨32400000, 34200000, "A"⟩]

lemma availabilityStatus_of_contains (merged : List BusyBlock) (dateStr todayStr : String)
    (windowStart windowEnd now : Int) (hd : merged.Pairwise endLT)
    (ht : dateStr = todayStr) (h1 : windowStart ≤ now) (h2 : now < windowEnd)
    (b : BusyBlock) (hb : b ∈ merged) (hc1 : b.start ≤ now) (hc2 : now < b.«end») :
    availabilityStatus merged dateStr todayStr windowStart windowEnd now
      = (false, some b.«end») := by
  have hbeq : (dateStr == todayStr) = true := by simpa using ht
  have hfind := find?_contains_unique now merged hd b hb hc1 hc2
  have hany : merged.any (fun x => decide (x.start ≤ now ∧ now < x.«end»)) = true :=
    List.any_eq_true.mpr ⟨b, hb, by simpa using And.intro hc1 hc2⟩
  simp only [availabilityStatus]
  rw [if_pos ⟨by simpa using hbeq, h1, h2⟩, if_pos (by simpa using hany), hfind]

lemma availabilityStatus_of_free (merged : List BusyBlock) (dateStr todayStr : String)
    (windowStart windowEnd now : Int)
    (ht : dateStr = todayStr) (h1 : windowStart ≤ now) (h2 : now < windowEnd)
    (hfree : ∀ b ∈ merged, ¬(b.start ≤ now ∧ now < b.«end»)) :
    availabilityStatus merged dateStr todayStr windowStart windowEnd now = (true, none) := by
  have hbeq : (dateStr == todayStr) = true := by simpa using ht
  have hany : merged.any (fun x => decide (x.start ≤ now ∧ now < x.«end»)) = false := by
    rw [List.any_eq_false]
    intro x hx
    simpa using hfree x hx
  simp only [availabilityStatus]
  rw [if_pos ⟨by simpa using hbeq, h1, h2⟩, if_neg (by rw [hany]; exact Bool.false_ne_true)]

/-- C5: the availability evaluator reports `(freeNow, nextAvailable)` as
`(false, absent)` when `now` is outside `[window.start, window.end)` or
the requested date is not today; otherwise `freeNow` is true iff no block
contains `now` (`block.start ≤ now < block.end`), and a block containing
`now` forces `(false, that block's end)`. -/
theorem availabilityStatus_spec (merged : List BusyBlock) (dateStr todayStr : String)
    (windowStart windowEnd now : Int) (hd : merged.Pairwise endLT) :
    ((dateStr ≠ todayStr ∨ now < windowStart ∨ windowEnd ≤ now) →
      availabilityStatus merged dateStr todayStr windowStart windowEnd now = (false, none)) ∧
    (dateStr = todayStr → windowStart ≤ now → now < windowEnd →
      (((availabilityStatus merged dateStr todayStr windowStart windowEnd now).1 = true) ↔
        ∀ b ∈ merged, ¬(b.start ≤ now ∧ now < b.«end»)) ∧
      ∀ b ∈ merged, b.start ≤ now → now < b.«end» →
        availabilityStatus merged dateStr todayStr windowStart windowEnd now
          = (false, some b.«end»)) := by
  constructor
  · intro h
    simp only [availabilityStatus]
    rw [if_neg]
    rintro ⟨hbeq, hge, hlt⟩
    rcases h with h | h | h
    · exact h (by simpa using hbeq)
    · exact absurd hge (not_le.mpr h)
    · exact absurd hlt (not_lt.mpr h)
  · intro ht h1 h2
    constructor
    · by_cases hex : ∃ b ∈ merged, b.start ≤ now ∧ now < b.«end»
      · obtain ⟨b, hb, hc⟩ := hex
        rw [availabilityStatus_of_contains merged dateStr todayStr windowStart windowEnd now
          hd ht h1 h2 b hb hc.1 hc.2]
        constructor
        · intro hfalse
          exact absurd hfalse (by simp)
        · intro hall
          exact absurd hc (hall b hb)
      · push_neg at hex
        rw [availabilityStatus_of_free merged dateStr todayStr windowStart windowEnd now
          ht h1 h2 (fun b hb hcc => absurd hcc.2 (not_lt.mpr (hex b hb hcc.1)))]
        refine iff_of_true rfl ?_
        intro b hb hcc
        exact absurd hcc.2 (not_lt.mpr (hex b hb hcc.1))
    · intro b hb hc1 hc2
      exact availabilityStatus_of_contains merged dateStr todayStr windowStart windowEnd now
        hd ht h1 h2 b hb hc1 hc2

/-- Witness for C5 at the specification's example: window 09:00–18:00,
now 10:00, blocks `[09:30–10:30]` → freeNow is false and nextAvailable is
10:30 (and outside the window the status is `(false, absent)`). -/
theorem availabilityStatus_spec_witness :
    (("D" ≠ "D" ∨ (36000000 : Int) < 32400000 ∨ (64800000 : Int) ≤ 36000000) →
      availabilityStatus [⟨34200000, 37800000, "X"⟩] "D" "D" 32400000 64800000 36000000
        = (false, none)) ∧
    ("D" = "D" → (32400000 : Int) ≤ 36000000 → (36000000 : Int) < 64800000 →
      (((availabilityStatus [⟨34200000, 37800000, "X"⟩] "D" "D" 32400000 64800000 36000000).1
          = true) ↔
        ∀ b ∈ [(⟨34200000, 37800000, "X"⟩ : BusyBlock)],
          ¬(b.start ≤ 36000000 ∧ (36000000 : Int) < b.«end»)) ∧
      ∀ b ∈ [(⟨34200000, 37800000, "X"⟩ : BusyBlock)],
        b.start ≤ 36000000 → (36000000 : Int) < b.«end» →
        availabilityStatus [⟨34200000, 37800000, "X"⟩] "D" "D" 32400000 64800000 36000000
          = (false, some b.«end»)) :=
  availabilityStatus_spec [⟨34200000, 37800000, "X"⟩] "D" "D" 32400000 64800000 36000000
    (by decide)

lemma labelStep_invariant (window9 : Int) (blocks : List BusyBlock)
    (acc : List Int × List BusyBlock) (i : Nat)
    (h1 : ∀ b ∈ acc.2, b.start ∈ acc.1)
    (h2 : acc.2.Pairwise (fun a b => a.start ≠ b.start)) :
    (∀ b ∈ (labelStep window9 blocks acc i).2, b.start ∈ (labelStep window9 blocks acc i).1) ∧
    (labelStep window9 blocks acc i).2.Pairwise (fun a b => a.start ≠ b.start) := by
  rw [labelStep]
  cases hs : isSlotBusy window9 i blocks with
  | none => exact ⟨h1, h2⟩
  | some b =>
    dsimp only
    by_cases hc : acc.1.contains b.start = true
    · rw [if_pos hc]
      exact ⟨h1, h2⟩
    · rw [if_neg hc]
      have hnotin : b.start ∉ acc.1 := by
        intro hmem
        exact hc (List.elem_iff.mpr hmem)
      constructor
      · intro x hx
        rcases List.mem_append.mp hx with h | h
        · exact List.mem_cons_of_mem _ (h1 x h)
        · rw [List.mem_singleton] at h
          exact h ▸ List.mem_cons_self _ _
      · rw [List.pairwise_append]
        refine ⟨h2, List.pairwise_singleton _ _, ?_⟩
        intro x hx y hy
        rw [List.mem_singleton] at hy
        subst hy
        intro heq
        exact hnotin (heq ▸ h1 x hx)

lemma labelFold_invariant (window9 : Int) (blocks : List BusyBlock) :
    ∀ (idxs : List Nat) (acc : List Int × List BusyBlock),
    (∀ b ∈ acc.2, b.start ∈ acc.1) →
    acc.2.Pairwise (fun a b => a.start ≠ b.start) →
    (List.foldl (labelStep window9 blocks) acc idxs).2.Pairwise
      (fun a b => a.start ≠ b.start) := by
  intro idxs
  induction idxs with
  | nil => intro acc _ h2; exact h2
  | cons i rest ih =>
    intro acc h1 h2
    have hstep := labelStep_invariant window9 blocks acc i h1 h2
    exact ih (labelStep window9 blocks acc i) hstep.1 hstep.2

/-- C6 counterexample: the claim predicts that two distinct blocks sharing
a start instant each receive their own label.  With blocks 09:00–09:30 and
09:00–10:00 (`window9 = 0`, starts both 0) only the first is labelled: the
dedup keys on the start-timestamp value, so the second block's label is
suppressed and it never appears in the labelled list. -/
theorem slotLabel_dedup_counterexample :
    renderSlotsLabels 0 [⟨0, 1800000, "A"⟩, ⟨0, 3600000, "B"⟩] = [⟨0, 1800000, "A"⟩] ∧
    (⟨0, 3600000, "B"⟩ : BusyBlock) ∉
      renderSlotsLabels 0 [⟨0, 1800000, "A"⟩, ⟨0, 3600000, "B"⟩] :=
  ⟨by decide, by decide⟩

/-- C6 (amended): slot-grid label de-duplication is keyed on the block's
start-timestamp value (`seen.has(busyBlock.start)`), not on block
identity: across the grid no start value is labelled more than once —
hence every block is labelled at most once, and of two distinct blocks
sharing the same start instant only the first encountered is labelled. -/
theorem slotLabel_dedup_amended (window9 : Int) (blocks : List BusyBlock) :
    (renderSlotsLabels window9 blocks).Pairwise (fun a b => a.start ≠ b.start) :=
  labelFold_invariant window9 blocks (List.range TOTAL_SLOTS) ([], [])
    (fun b hb => absurd hb (List.not_mem_nil b)) List.Pairwise.nil

/-- C8: when exactly one room's remote fetch fails, that room's snapshot
degrades to empty busy blocks, `freeNow = false`, `nextAvailable` absent
and `error` set, while the other room's snapshot and the echoed date are
exactly what they would have been had the failing room's fetch succeeded
with any result. -/
theorem room_failure_containment (msg : String)
    (fOther fAny : Except String (List CalEvent)) (dateStr todayStr : String)
    (windowStart windowEnd now : Int) :
    (buildAvailabilityResponse (.error msg) fOther dateStr todayStr windowStart windowEnd now).talkingRoom
        = degradedRoom ∧
    degradedRoom.busyBlocks = [] ∧ degradedRoom.freeNow = false ∧
    degradedRoom.nextAvailable = none ∧ degradedRoom.error.isSome = true ∧
    (buildAvailabilityResponse (.error msg) fOther dateStr todayStr windowStart windowEnd now).boardRoom
        = (buildAvailabilityResponse fAny fOther dateStr todayStr windowStart windowEnd now).boardRoom ∧
    (buildAvailabilityResponse (.error msg) fOther dateStr todayStr windowStart windowEnd now).date
        = (buildAvailabilityResponse fAny fOther dateStr todayStr windowStart windowEnd now).date ∧
    (buildAvailabilityResponse fOther (.error msg) dateStr todayStr windowStart windowEnd now).boardRoom
        = degradedRoom ∧
    (buildAvailabilityResponse fOther (.error msg) dateStr todayStr windowStart windowEnd now).talkingRoom
        = (buildAvailabilityResponse fOther fAny dateStr todayStr windowStart windowEnd now).talkingRoom :=
  ⟨rfl, rfl, rfl, rfl, rfl, rfl, rfl, rfl, rfl⟩

/-- C10: normalisation clips each record's start to
`max(start, window.start)` and its end to `min(end, window.end)`, keeps
the record iff the clipped start is strictly before the clipped end, and
preserves the original label on kept records; record 08:00–09:15 against
window 09:00–18:00 becomes 09:00–09:15, and a record entirely before the
window is discarded. -/
theorem normalize_clip_spec (events : List CalEvent) (windowStart windowEnd : Int) :
    (∀ b, b ∈ rawBlocksOf events windowStart windowEnd ↔
      ∃ e ∈ events, max e.start windowStart < min e.«end» windowEnd ∧
        b = clipRecord e windowStart windowEnd) ∧
    (∀ e : CalEvent, ∀ L : String, e.summary = some L →
      (clipRecord e windowStart windowEnd).title = L) ∧
    rawBlocksOf [⟨28800000, 33300000, some "A"⟩] 32400000 64800000
      = [⟨32400000, 33300000, "A"⟩] ∧
    rawBlocksOf [⟨25200000, 28800000, some "B"⟩] 32400000 64800000 = [] := by
  refine ⟨?_, ?_, by decide, by decide⟩
  · intro b
    rw [rawBlocksOf, List.mem_filter, List.mem_map]
    constructor
    · rintro ⟨⟨e, he, rfl⟩, hp⟩
      exact ⟨e, he, by simpa [clipRecord] using hp, rfl⟩
    · rintro ⟨e, he, hlt, rfl⟩
      exact ⟨⟨e, he, rfl⟩, by simpa [clipRecord] using hlt⟩
  · intro e L h
    simp [clipRecord, h]

/-- Witness for C10 at the specification's clamping example. -/
theorem normalize_clip_spec_witness :
    ((⟨32400000, 33300000, "A"⟩ : BusyBlock)
        ∈ rawBlocksOf [⟨28800000, 33300000, some "A"⟩] 32400000 64800000 ↔
      ∃ e ∈ [(⟨28800000, 33300000, some "A"⟩ : CalEvent)],
        max e.start 32400000 < min e.«end» 64800000 ∧
        (⟨32400000, 33300000, "A"⟩ : BusyBlock) = clipRecord e 32400000 64800000) ∧
    (clipRecord ⟨28800000, 33300000, some "A"⟩ 32400000 64800000).title = "A" :=
  ⟨(normalize_clip_spec [⟨28800000, 33300000, some "A"⟩] 32400000 64800000).1 _,
   (normalize_clip_spec [⟨28800000, 33300000, some "A"⟩] 32400000 64800000).2.1
     ⟨28800000, 33300000, some "A"⟩ "A" rfl⟩

lemma cacheFind_filter_ne (c : Cache) (dk k : String) (h : k ≠ dk) :
    cacheFind (List.filter (fun p => !(p.1 == dk)) c) k = cacheFind c k := by
  induction c with
  | nil => rfl
  | cons p rest ih =>
    by_cases hp : p.1 = dk
    · have h1 : List.filter (fun q => !(q.1 == dk)) (p :: rest)
          = List.filter (fun q => !(q.1 == dk)) rest := by
        simp [List.filter_cons, hp]
      have h2 : cacheFind (p :: rest) k = cacheFind rest k := by
        rw [cacheFind, List.find?_cons_of_neg _ (by simp [hp, Ne.symm h]), cacheFind]
      rw [h1, h2, ih]
    · have h1 : List.filter (fun q => !(q.1 == dk)) (p :: rest)
          = p :: List.filter (fun q => !(q.1 == dk)) rest := by
        simp [List.filter_cons, hp]
      rw [h1]
      by_cases hpk : p.1 = k
      · rw [cacheFind, List.find?_cons_of_pos _ (by simp [hpk]), cacheFind,
          List.find?_cons_of_pos _ (by simp [hpk])]
      · rw [cacheFind, List.find?_cons_of_neg _ (by simp [hpk]), cacheFind,
          List.find?_cons_of_neg _ (by simp [hpk])]
        exact ih

/-- C7: the availability route's cache read returns the stored snapshot
iff an entry exists for the date and `now − entry.ts < 60000`; on such a
hit the handler returns that snapshot unchanged without invoking the
remote fetch; on a miss it recomputes, fetches, and stores the new
snapshot with `ts = now`, overwriting any prior entry for the date while
leaving other dates' entries untouched. -/
theorem cache_ttl_spec (c : Cache) (dateStr todayStr : String)
    (windowStart windowEnd now : Int) (f1 f2 : Except String (List CalEvent)) :
    (∀ d, cacheFresh c dateStr now = some d ↔
      ∃ e, cacheFind c dateStr = some e ∧ now - e.ts < CACHE_TTL ∧ d = e.data) ∧
    (∀ e, cacheFind c dateStr = some e → now - e.ts < CACHE_TTL →
      GETavailability c dateStr todayStr windowStart windowEnd now f1 f2
        = (e.data, c, false)) ∧
    (cacheFresh c dateStr now = none →
      GETavailability c dateStr todayStr windowStart windowEnd now f1 f2
        = (buildAvailabilityResponse f1 f2 dateStr todayStr windowStart windowEnd now,
           cacheSet c dateStr
             ⟨buildAvailabilityResponse f1 f2 dateStr todayStr windowStart windowEnd now, now⟩,
           true)) ∧
    (∀ e, cacheFind (cacheSet c dateStr e) dateStr = some e) ∧
    (∀ k e, k ≠ dateStr → cacheFind (cacheSet c dateStr e) k = cacheFind c k) := by
  refine ⟨?_, ?_, ?_, ?_, ?_⟩
  · intro d
    rw [cacheFresh]
    cases hf : cacheFind c dateStr with
    | none =>
      dsimp only
      constructor
      · intro hcontra
        exact absurd hcontra (by simp)
      · rintro ⟨e, he, _⟩
        exact absurd he (by simp)
    | some e =>
      dsimp only
      by_cases ht : now - e.ts < CACHE_TTL
      · rw [if_pos ht]
        constructor
        · intro hsome
          injection hsome with hsome
          exact ⟨e, rfl, ht, hsome.symm⟩
        · rintro ⟨e', he', _, hd⟩
          injection he' with he'
          rw [hd, he']
      · rw [if_neg ht]
        constructor
        · intro hcontra
          exact absurd hcontra (by simp)
        · rintro ⟨e', he', ht', _⟩
          injection he' with he'
          exact absurd (he' ▸ ht') ht
  · intro e he ht
    simp only [GETavailability, cacheFresh, he, if_pos ht]
  · intro hmiss
    simp only [GETavailability, hmiss]
  · intro e
    rw [cacheSet, cacheFind, List.find?_cons_of_pos _ (by simp)]
    rfl
  · intro k e hk
    rw [cacheSet, cacheFind, List.find?_cons_of_neg _ (by simpa using Ne.symm hk)]
    exact cacheFind_filter_ne c dateStr k hk

/-- Witness for C7: a concrete cache holding an entry for date "D"
written at `ts = 0`; a read at `now = 30000` is a fresh hit returning the
stored snapshot without fetching; at `now = 60000` the entry is expired
(a miss); and overwriting "D" stores the new entry. -/
theorem cache_ttl_spec_witness :
    (GETavailability
        [("D", ⟨buildAvailabilityResponse (.ok []) (.ok []) "D" "T" 0 540 0, 0⟩)]
        "D" "T" 0 540 30000 (.ok []) (.ok [])
      = (buildAvailabilityResponse (.ok []) (.ok []) "D" "T" 0 540 0,
         [("D", ⟨buildAvailabilityResponse (.ok []) (.ok []) "D" "T" 0 540 0, 0⟩)],
         false)) ∧
    (cacheFresh
        [("D", ⟨buildAvailabilityResponse (.ok []) (.ok []) "D" "T" 0 540 0, 0⟩)]
        "D" 60000 = none) ∧
    (cacheFind
        (cacheSet [("D", ⟨buildAvailabilityResponse (.ok []) (.ok []) "D" "T" 0 540 0, 0⟩)]
          "D" ⟨buildAvailabilityResponse (.ok []) (.ok []) "D" "T" 0 540 60000, 60000⟩)
        "D"
      = some ⟨buildAvailabilityResponse (.ok []) (.ok []) "D" "T" 0 540 60000, 60000⟩) :=
  ⟨(cache_ttl_spec
      [("D", ⟨buildAvailabilityResponse (.ok []) (.ok []) "D" "T" 0 540 0, 0⟩)]
      "D" "T" 0 540 30000 (.ok []) (.ok [])).2.1
      ⟨buildAvailabilityResponse (.ok []) (.ok []) "D" "T" 0 540 0, 0⟩ (by decide) (by decide),
   by decide,
   (cache_ttl_spec
      [("D", ⟨buildAvailabilityResponse (.ok []) (.ok []) "D" "T" 0 540 0, 0⟩)]
      "D" "T" 0 540 60000 (.ok []) (.ok [])).2.2.2.1
      ⟨buildAvailabilityResponse (.ok []) (.ok []) "D" "T" 0 540 60000, 60000⟩⟩

/-- C1: evaluation of the invalidation scenario on the code.  A first
availability read for date "D" populates the route's module-level cache;
a successful create (book `POST`) for "D" deletes "D" only from the
shared `availabilityCache` of `cache.ts`, leaving the entry the
availability read consults untouched; a second read 30 seconds later is
therefore a fresh cache hit: it does not re-invoke the remote fetch and
returns the pre-create snapshot rather than a recomputation from the
post-create calendar state — contrary to the claim. -/
theorem createInvalidation_bug :
    let s0 : SystemCaches := ⟨[], []⟩
    let firstRead := GETsys s0 "D" "T" 0 540 0 (Except.ok []) (Except.ok [])
    let afterBook := POSTbook firstRead.2.1 "D"
    let fresh : Except String (List CalEvent) := Except.ok [⟨0, 30, some "E"⟩]
    let secondRead := GETsys afterBook "D" "T" 0 540 30000 fresh fresh
    firstRead.2.2 = true ∧
    cacheFind afterBook.routeCache "D" = some ⟨firstRead.1, 0⟩ ∧
    secondRead.2.2 = false ∧
    secondRead.1 = firstRead.1 ∧
    secondRead.1 ≠ buildAvailabilityResponse fresh fresh "D" "T" 0 540 30000 := by
  decide
